import Mathlib

/-!
Formal model of the backbot backport engine (github.com/yhabteab/backbot).

The Go sources are embedded shallowly: pure helpers become Lean functions,
and the side-effecting orchestrator (`backPorter.Run` and its callees) is
modelled as a function from an oracle environment (the responses of the
GitHub API and of the git subprocess calls) to the list of externally
visible mutations it performs (comments, branch checkouts, pushes, PR
creations, label additions, event dispatches) together with its final
outcome.  Machine integers are modelled as `Int`; fallible operations
return `Option`.
-/

set_option maxRecDepth 100000

namespace Backbot

/-- A changed-file entry of a commit or pull request, with the fields the
engine compares (go-github `CommitFile`, as used by `compareCommitFile`). -/
structure CommitFile where
  filename : String
  additions : Int
  deletions : Int
  changes : Int
  patch : String
deriving DecidableEq, Repr

/-- A commit as the engine sees it: its SHA, the SHA list of its parents and
its changed-file list (go-github `RepositoryCommit` restricted to the fields
the engine reads). -/
structure Commit where
  sha : String
  parents : List String
  files : List CommitFile
deriving DecidableEq, Repr

/-- The source pull request snapshot (go-github `PullRequest` restricted to
the fields the engine reads).  `changedFiles` is the aggregate changed-file
list that `Client.ListFiles` pages in; `commits` is the commit count field. -/
structure PullRequest where
  number : Int
  merged : Bool
  mergeCommitSHA : String
  commits : Int
  changedFiles : List CommitFile
  labels : List String
deriving DecidableEq, Repr

/-- Merge strategies, from the `MergeKind` enumeration in the github package
(`MergeInvalid`, `Squash`, `MergeCommit`, `Rebase`). -/
inductive MergeKind where
  | invalid
  | squash
  | mergeCommit
  | rebase
deriving DecidableEq, Repr

/-- `IsMergeCommit` from the github package: a commit with more than one
parent is a merge commit. -/
def IsMergeCommit (c : Commit) : Bool :=
  decide (1 < c.parents.length)

/-- `compareCommitFile` from the github package: field-by-field equality of
two changed-file entries, with the source's early-return structure. -/
def compareCommitFile (a b : CommitFile) : Bool :=
  if a.filename ≠ b.filename then false
  else if a.additions ≠ b.additions then false
  else if a.deletions ≠ b.deletions then false
  else if a.changes ≠ b.changes then false
  else if a.patch ≠ b.patch then false
  else true

/-- The inner loop of `Client.MergeKind`'s file comparison: walk both lists
in lockstep, returning `Rebase` at the first mismatching pair and `Squash`
when the walk completes.  Only called on lists of equal length. -/
def classifyLoop : List CommitFile → List CommitFile → MergeKind
  | f :: fs, g :: gs => if compareCommitFile f g then classifyLoop fs gs else .rebase
  | _, _ => .squash

/-- The file-diff heuristic of `Client.MergeKind`: when the PR's file list
and the merge commit's file list have equal length, compare them index by
index (`Rebase` on any mismatch, `Squash` when identical); on differing
lengths return `Rebase`. -/
def classifyByFiles (files mcFiles : List CommitFile) : MergeKind :=
  if files.length = mcFiles.length then classifyLoop files mcFiles
  else .rebase

/-- `Client.MergeKind`: classify how a PR was merged.  `getCommit` is the
oracle for `Client.GetCommit` (`none` models an API error, in which case
`MergeKind` returns an error, modelled as `none`).  `Client.ListFiles` is
modelled as returning `pr.changedFiles` without failing. -/
def mergeKind (getCommit : String → Option Commit) (pr : PullRequest) : Option MergeKind :=
  if !pr.merged then some .invalid
  else if pr.mergeCommitSHA ≠ "" then
    match getCommit pr.mergeCommitSHA with
    | none => none
    | some mergeCommit =>
      if IsMergeCommit mergeCommit then some .mergeCommit
      else if pr.commits = 1 then some .squash
      else some (classifyByFiles pr.changedFiles mergeCommit.files)
  else some .invalid

/-- Specification-side equality of two changed-file entries: equal filename,
addition, deletion and change counts, and patch text. -/
def FileEntryEq (a b : CommitFile) : Prop :=
  a.filename = b.filename ∧ a.additions = b.additions ∧ a.deletions = b.deletions ∧
    a.changes = b.changes ∧ a.patch = b.patch

/-- Specification-side element-wise equality of two changed-file lists: same
length and, at every index, equal entries. -/
def FilesIdentical (a b : List CommitFile) : Prop :=
  a.length = b.length ∧ ∀ p ∈ a.zip b, FileEntryEq p.1 p.2

instance : DecidablePred fun p : CommitFile × CommitFile => FileEntryEq p.1 p.2 := by
  intro p
  unfold FileEntryEq
  infer_instance

instance (a b : List CommitFile) : Decidable (FilesIdentical a b) := by
  unfold FilesIdentical
  infer_instance

lemma compareCommitFile_eq_true_iff (a b : CommitFile) :
    compareCommitFile a b = true ↔ FileEntryEq a b := by
  unfold compareCommitFile FileEntryEq
  split_ifs with h1 h2 h3 h4 h5 <;> simp_all

lemma classifyLoop_eq_squash_iff (a b : List CommitFile) :
    classifyLoop a b = .squash ↔ ∀ p ∈ a.zip b, compareCommitFile p.1 p.2 = true := by
  induction a generalizing b with
  | nil => simp [classifyLoop]
  | cons f fs ih =>
    cases b with
    | nil => simp [classifyLoop]
    | cons g gs =>
      by_cases h : compareCommitFile f g
      · simp [classifyLoop, h, ih]
      · simp [classifyLoop, h]

lemma classifyLoop_squash_or_rebase (a b : List CommitFile) :
    classifyLoop a b = .squash ∨ classifyLoop a b = .rebase := by
  induction a generalizing b with
  | nil => simp [classifyLoop]
  | cons f fs ih =>
    cases b with
    | nil => simp [classifyLoop]
    | cons g gs =>
      by_cases h : compareCommitFile f g
      · simpa [classifyLoop, h] using ih gs
      · simp [classifyLoop, h]

lemma classifyByFiles_eq_squash_iff (a b : List CommitFile) :
    classifyByFiles a b = .squash ↔ FilesIdentical a b := by
  unfold classifyByFiles FilesIdentical
  by_cases hlen : a.length = b.length
  · simp only [hlen, if_true, classifyLoop_eq_squash_iff, true_and]
    constructor
    · intro h p hp
      exact (compareCommitFile_eq_true_iff p.1 p.2).mp (h p hp)
    · intro h p hp
      exact (compareCommitFile_eq_true_iff p.1 p.2).mpr (h p hp)
  · simp [hlen]

lemma classifyByFiles_squash_or_rebase (a b : List CommitFile) :
    classifyByFiles a b = .squash ∨ classifyByFiles a b = .rebase := by
  unfold classifyByFiles
  by_cases hlen : a.length = b.length
  · simpa [hlen] using classifyLoop_squash_or_rebase a b
  · simp [hlen]

lemma classifyByFiles_eq_rebase_iff (a b : List CommitFile) :
    classifyByFiles a b = .rebase ↔ ¬ FilesIdentical a b := by
  rw [← classifyByFiles_eq_squash_iff]
  rcases classifyByFiles_squash_or_rebase a b with h | h <;> simp [h]

/-- C1.  For every merged pull request with a non-empty merge-commit SHA
(whose merge commit is fetchable), the merge-kind resolver returns
`MergeCommit` when the merge commit has more than one parent; otherwise
`Squash` when the PR's commit count is exactly 1, regardless of file
content; otherwise `Squash` exactly when the PR's changed-file list and the
merge commit's file list are equal element-wise in order (same length and,
at every index, equal filename, additions, deletions, changes and patch
text), and `Rebase` when the lengths differ or any indexed pair differs. -/
theorem c1_mergeKind_classification (gc : String → Option Commit) (pr : PullRequest)
    (mc : Commit) (hm : pr.merged = true) (hs : pr.mergeCommitSHA ≠ "")
    (hg : gc pr.mergeCommitSHA = some mc) :
    (1 < mc.parents.length → mergeKind gc pr = some .mergeCommit) ∧
    (¬ 1 < mc.parents.length → pr.commits = 1 → mergeKind gc pr = some .squash) ∧
    (¬ 1 < mc.parents.length → pr.commits ≠ 1 → FilesIdentical pr.changedFiles mc.files →
      mergeKind gc pr = some .squash) ∧
    (¬ 1 < mc.parents.length → pr.commits ≠ 1 → ¬ FilesIdentical pr.changedFiles mc.files →
      mergeKind gc pr = some .rebase) := by
  refine ⟨?_, ?_, ?_, ?_⟩
  · intro hp
    simp [mergeKind, hm, hs, hg, IsMergeCommit, hp]
  · intro hp hc
    simp [mergeKind, hm, hs, hg, IsMergeCommit, hp, hc]
  · intro hp hc hf
    simp [mergeKind, hm, hs, hg, IsMergeCommit, hp, hc,
      (classifyByFiles_eq_squash_iff pr.changedFiles mc.files).mpr hf]
  · intro hp hc hf
    simp [mergeKind, hm, hs, hg, IsMergeCommit, hp, hc,
      (classifyByFiles_eq_rebase_iff pr.changedFiles mc.files).mpr hf]

/-- A two-commit PR whose squash-merge commit has one parent and whose file
lists agree, used to instantiate the resolver theorem. -/
def c1File : CommitFile :=
  { filename := "a.go", additions := 3, deletions := 1, changes := 4, patch := "@@ -1 +1 @@" }

/-- The merge commit of the instantiation PR. -/
def c1Commit : Commit := { sha := "m1", parents := ["p0"], files := [c1File] }

/-- The instantiation PR: merged, two commits, one changed file. -/
def c1Pr : PullRequest :=
  { number := 7, merged := true, mergeCommitSHA := "m1", commits := 2,
    changedFiles := [c1File], labels := [] }

/-- The commit-lookup oracle of the instantiation. -/
def c1Gc : String → Option Commit := fun s => if s = "m1" then some c1Commit else none

theorem c1_mergeKind_classification_witness :
    c1Pr.merged = true ∧ c1Pr.mergeCommitSHA ≠ "" ∧ c1Gc c1Pr.mergeCommitSHA = some c1Commit ∧
    ((1 < c1Commit.parents.length → mergeKind c1Gc c1Pr = some .mergeCommit) ∧
     (¬ 1 < c1Commit.parents.length → c1Pr.commits = 1 → mergeKind c1Gc c1Pr = some .squash) ∧
     (¬ 1 < c1Commit.parents.length → c1Pr.commits ≠ 1 →
        FilesIdentical c1Pr.changedFiles c1Commit.files → mergeKind c1Gc c1Pr = some .squash) ∧
     (¬ 1 < c1Commit.parents.length → c1Pr.commits ≠ 1 →
        ¬ FilesIdentical c1Pr.changedFiles c1Commit.files →
        mergeKind c1Gc c1Pr = some .rebase)) :=
  ⟨by decide, by decide, by decide,
    c1_mergeKind_classification c1Gc c1Pr c1Commit (by decide) (by decide) (by decide)⟩

/-- C9 counterexample.  A merged PR whose merge commit has zero parents is
not rejected: with a commit count of 1 the resolver classifies it `Squash`,
rather than failing or returning the invalid kind. -/
theorem c9_orphan_classified_squash_cex :
    mergeKind (fun s => if s = "m0" then some { sha := "m0", parents := [], files := [] } else none)
        { number := 5, merged := true, mergeCommitSHA := "m0", commits := 1,
          changedFiles := [], labels := [] }
      = some .squash ∧
    mergeKind (fun s => if s = "m0" then some { sha := "m0", parents := [], files := [] } else none)
        { number := 5, merged := true, mergeCommitSHA := "m0", commits := 1,
          changedFiles := [], labels := [] }
      ≠ some .invalid ∧
    mergeKind (fun s => if s = "m0" then some { sha := "m0", parents := [], files := [] } else none)
        { number := 5, merged := true, mergeCommitSHA := "m0", commits := 1,
          changedFiles := [], labels := [] }
      ≠ none := by
  refine ⟨by decide, by decide, by decide⟩

/-- C9 amended.  A zero-parent (orphan) merge commit is not special-cased:
the resolver treats it like any non-merge commit and classifies the PR as
`Squash` or `Rebase` (never as a failure, never as the invalid kind). -/
theorem c9_orphan_amended (gc : String → Option Commit) (pr : PullRequest) (mc : Commit)
    (hm : pr.merged = true) (hs : pr.mergeCommitSHA ≠ "")
    (hg : gc pr.mergeCommitSHA = some mc) (hp : mc.parents = []) :
    mergeKind gc pr = some .squash ∨ mergeKind gc pr = some .rebase := by
  have hnm : IsMergeCommit mc = false := by
    simp [IsMergeCommit, hp]
  by_cases hc : pr.commits = 1
  · left
    simp [mergeKind, hm, hs, hg, hnm, hc]
  · rcases classifyByFiles_squash_or_rebase pr.changedFiles mc.files with h | h
    · left
      simp [mergeKind, hm, hs, hg, hnm, hc, h]
    · right
      simp [mergeKind, hm, hs, hg, hnm, hc, h]

/-- The orphan-commit lookup oracle of the C9 instantiation. -/
def c9Gc : String → Option Commit :=
  fun s => if s = "m0" then some { sha := "m0", parents := [], files := [] } else none

/-- The C9 instantiation PR: merged, three commits, an orphan merge commit. -/
def c9Pr : PullRequest :=
  { number := 5, merged := true, mergeCommitSHA := "m0", commits := 3,
    changedFiles := [], labels := [] }

theorem c9_orphan_amended_witness :
    c9Pr.merged = true ∧ c9Pr.mergeCommitSHA ≠ "" ∧
    c9Gc c9Pr.mergeCommitSHA = some { sha := "m0", parents := [], files := [] } ∧
    (mergeKind c9Gc c9Pr = some .squash ∨ mergeKind c9Gc c9Pr = some .rebase) :=
  ⟨by decide, by decide, by decide,
    c9_orphan_amended c9Gc c9Pr { sha := "m0", parents := [], files := [] }
      (by decide) (by decide) (by decide) (by decide)⟩

/-- `MergeCommitHandlingAbort` from the `const` block of `input.go`: abort
the backport if any merge commits are found. -/
def MergeCommitHandlingAbort : String := "abort"

/-- `MergeCommitHandlingSkip` from the `const` block of `input.go`: skip
merge commits when cherry-picking (the documented default of
`Input.MergeCommitHandling`). -/
def MergeCommitHandlingSkip : String := "skip"

/-- `ConflictHandlingAbort` from the `const` block of `input.go`: abort the
backport if there are conflicts. -/
def ConflictHandlingAbort : String := "abort"

/-- `ConflictHandlingDraft` from the `const` block of `input.go`: create a
draft PR if there are conflicts. -/
def ConflictHandlingDraft : String := "draft"

/-- The configuration fields of `Input` that the orchestrator branches on. -/
structure Config where
  mergeCommitHandling : String
  conflictHandling : String
deriving DecidableEq, Repr

/-- `slices.DeleteFunc`: remove every element satisfying the predicate,
keeping the remaining elements in order. -/
def deleteFunc (del : String → Bool) : List String → List String
  | [] => []
  | s :: rest => if del s then deleteFunc del rest else s :: deleteFunc del rest

/-- Outcome of the merge-commit handling block of `backPorter.Run`
(backport.go:115-129): either the whole run is aborted (with a comment) or a
commit list is kept for replay. -/
inductive MergeFilterOutcome where
  | aborted
  | kept (commits : List String)
deriving DecidableEq, Repr

/-- The merge-commit handling block of `backPorter.Run` (backport.go:115-129):
when the `--merges` rev-list of the selected range is non-empty, the run is
aborted under the abort handling value, and under every other handling value
the merge commits are deleted from the list to cherry-pick. -/
def filterMergeCommits (handling : String) (commitSHAs mergeCommitSHAs : List String) :
    MergeFilterOutcome :=
  if mergeCommitSHAs.length ≠ 0 then
    if handling = MergeCommitHandlingAbort then .aborted
    else .kept (deleteFunc (fun s => mergeCommitSHAs.contains s) commitSHAs)
  else .kept commitSHAs

lemma deleteFunc_eq_filter (del : String → Bool) (l : List String) :
    deleteFunc del l = l.filter (fun s => !del s) := by
  induction l with
  | nil => rfl
  | cons s rest ih =>
    by_cases h : del s <;> simp [deleteFunc, h, ih]

/-- C2 counterexample.  Under an "include" merge-commit-handling value the
merge commit `m` of the selected range `[a, m, b]` is deleted from the list
of commits to replay, so the replayed list differs from the selected one. -/
theorem c2_include_drops_merge_commits_cex :
    ("include" ≠ "skip" ∧ "include" ≠ MergeCommitHandlingAbort) ∧
    filterMergeCommits "include" ["a", "m", "b"] ["m"] = .kept ["a", "b"] ∧
    filterMergeCommits "include" ["a", "m", "b"] ["m"] ≠ .kept ["a", "m", "b"] := by
  refine ⟨⟨by decide, by decide⟩, by decide, by decide⟩

/-- C2 amended.  For every merge-commit-handling value other than the abort
value, the run is never aborted: the replayed list is the selected list with
every commit of the merges-in-range list removed — a sublist of the selected
list that contains no merge commit and retains every non-merge commit. -/
theorem c2_filter_merge_commits_amended (handling : String) (sel merges : List String)
    (h : handling ≠ MergeCommitHandlingAbort) :
    ∃ l, filterMergeCommits handling sel merges = .kept l ∧
      l.Sublist sel ∧ (∀ s ∈ merges, s ∉ l) ∧ (∀ s ∈ sel, s ∉ merges → s ∈ l) := by
  unfold filterMergeCommits
  by_cases hm : merges.length ≠ 0
  · refine ⟨deleteFunc (fun s => merges.contains s) sel, by simp [hm, h], ?_, ?_, ?_⟩
    · rw [deleteFunc_eq_filter]
      exact List.filter_sublist sel
    · intro s hs hmem
      rw [deleteFunc_eq_filter] at hmem
      have := List.of_mem_filter hmem
      simp only [Bool.not_eq_true'] at this
      rw [show merges.contains s = false ↔ s ∉ merges by simp] at this
      exact this hs
    · intro s hs hnot
      rw [deleteFunc_eq_filter]
      refine List.mem_filter.mpr ⟨hs, ?_⟩
      simp only [Bool.not_eq_true']
      rw [show merges.contains s = false ↔ s ∉ merges by simp]
      exact hnot
  · exact ⟨sel, by simp [hm], List.Sublist.refl sel, by simp at hm; simp [hm], fun s hs _ => hs⟩

theorem c2_filter_merge_commits_amended_witness :
    ("include" ≠ MergeCommitHandlingAbort) ∧
    (∃ l, filterMergeCommits "include" ["a", "m", "b"] ["m"] = .kept l ∧
      l.Sublist ["a", "m", "b"] ∧ (∀ s ∈ ["m"], s ∉ l) ∧
      (∀ s ∈ ["a", "m", "b"], s ∉ ["m"] → s ∈ l)) :=
  ⟨by decide, c2_filter_merge_commits_amended "include" ["a", "m", "b"] ["m"] (by decide)⟩

/-- The body of `backPorter.getTargetRefs`'s label loop (backport.go:276-296):
for each label, take the regex submatch list; skip the label on no match or
on a match without a capturing group; otherwise take the first captured
group as the branch name and keep it when fetching the branch succeeds. -/
def targetRefsLoop (m : String → List String) (fetchOk : String → Bool) :
    List String → List String
  | [] => []
  | label :: rest =>
    match m label with
    | [] => targetRefsLoop m fetchOk rest
    | [_] => targetRefsLoop m fetchOk rest
    | _ :: branch :: _ =>
      if fetchOk branch then branch :: targetRefsLoop m fetchOk rest
      else targetRefsLoop m fetchOk rest

/-- `backPorter.getTargetRefs` (backport.go:267-298).  `labelRegex` models the
compiled label pattern as its `FindStringSubmatch` behaviour (`none` models a
nil regex); `fetchOk` models whether `git fetch` of a candidate branch
succeeds (i.e. whether the branch exists). -/
def getTargetRefs (labelRegex : Option (String → List String)) (fetchOk : String → Bool)
    (labels : List String) : List String :=
  match labelRegex with
  | none => []
  | some m => if labels.length = 0 then [] else targetRefsLoop m fetchOk labels

/-- The branch a single label contributes: the first captured group of its
submatch list, if the match has a capturing group and the branch exists. -/
def extractBranch (m : String → List String) (fetchOk : String → Bool) (label : String) :
    Option String :=
  match m label with
  | _ :: branch :: _ => if fetchOk branch then some branch else none
  | _ => none

/-- C4 counterexample.  Two distinct labels whose matches capture the same
branch text produce that branch twice: the returned list is not
duplicate-free. -/
theorem c4_duplicate_branches_cex :
    getTargetRefs (some fun l => [l, "v1"]) (fun _ => true) ["backport-a", "backport-b"]
      = ["v1", "v1"] ∧
    ¬ (getTargetRefs (some fun l => [l, "v1"]) (fun _ => true)
        ["backport-a", "backport-b"]).Nodup := by
  refine ⟨by decide, by decide⟩

/-- C4 amended.  The target-branch resolver returns, in label order, the
captured branch of every label whose match has a capturing group and whose
branch exists; a label whose match has no capturing group contributes no
branch.  Duplicate branch names are not removed (two labels capturing the
same text both contribute). -/
theorem c4_target_refs_amended (m : String → List String) (fetchOk : String → Bool)
    (labels : List String) :
    getTargetRefs (some m) fetchOk labels = labels.filterMap (extractBranch m fetchOk) ∧
    ∀ label ∈ labels, (m label).length < 2 → extractBranch m fetchOk label = none := by
  constructor
  · unfold getTargetRefs
    by_cases h0 : labels.length = 0
    · rw [List.length_eq_zero] at h0
      simp [h0]
    · simp only [h0, if_false]
      clear h0
      induction labels with
      | nil => rfl
      | cons label rest ih =>
        simp only [List.filterMap_cons]
        cases hm : m label with
        | nil => simp [targetRefsLoop, hm, extractBranch, ih]
        | cons x tail =>
          cases tail with
          | nil => simp [targetRefsLoop, hm, extractBranch, ih]
          | cons branch tail2 =>
            by_cases hf : fetchOk branch
            · simp [targetRefsLoop, hm, extractBranch, hf, ih]
            · simp [targetRefsLoop, hm, extractBranch, hf, ih]
  · intro label _ hlen
    unfold extractBranch
    cases hm : m label with
    | nil => rfl
    | cons x tail =>
      cases tail with
      | nil => rfl
      | cons branch tail2 =>
        rw [hm] at hlen
        simp at hlen
        omega

theorem c4_target_refs_amended_witness :
    getTargetRefs (some fun l => if l = "backport-to-v1" then [l, "v1"] else [])
        (fun b => b = "v1") ["backport-to-v1", "bug"]
      = ["backport-to-v1", "bug"].filterMap
          (extractBranch (fun l => if l = "backport-to-v1" then [l, "v1"] else [])
            (fun b => b = "v1")) ∧
    ∀ label ∈ ["backport-to-v1", "bug"],
      ((fun l => if l = "backport-to-v1" then [l, "v1"] else []) label).length < 2 →
        extractBranch (fun l => if l = "backport-to-v1" then [l, "v1"] else [])
          (fun b => b = "v1") label = none :=
  c4_target_refs_amended (fun l => if l = "backport-to-v1" then [l, "v1"] else [])
    (fun b => b = "v1") ["backport-to-v1", "bug"]

/-- The body of `backPorter.getLabelsToAdd`'s label loop (backport.go:311-322):
skip a label matched by the target-branch pattern, skip a label not matched
by the copy pattern, and keep every other label. -/
def labelsToAddLoop (labelRegex : Option (String → List String)) (copyMatch : String → Bool) :
    List String → List String
  | [] => []
  | label :: rest =>
    if (match labelRegex with | some m => !(m label).isEmpty | none => false) then
      labelsToAddLoop labelRegex copyMatch rest
    else if !copyMatch label then labelsToAddLoop labelRegex copyMatch rest
    else label :: labelsToAddLoop labelRegex copyMatch rest

/-- `backPorter.getLabelsToAdd` (backport.go:304-324).  `copyMatch` models the
compiled copy pattern's `MatchString` (`none` models a nil regex, in which
case no labels are copied); a label match of the target-branch regex is its
non-empty `FindStringSubmatch` list. -/
def getLabelsToAdd (labelRegex : Option (String → List String))
    (copyRegex : Option (String → Bool)) (labels : List String) : List String :=
  match copyRegex with
  | none => []
  | some cm => if labels.length = 0 then [] else labelsToAddLoop labelRegex cm labels

/-- `makeBackportBranchName` (utils.go:14-16): the backport branch is named
from the source PR number and the target branch. -/
def makeBackportBranchName (prNumber : Int) (targetBranch : String) : String :=
  "backport-" ++ toString prNumber ++ "-to-" ++ targetBranch

/-- `strings.ReplaceAll(refName, "/", "-")` as used by `listManualSteps`:
with a single-character pattern and replacement this is a character map. -/
def replaceSlashes (s : String) : String :=
  String.mk (s.data.map fun c => if c = '/' then '-' else c)

/-- The `steps` slice of `listManualSteps` (utils.go:55-66).  Note the Go
format string of the worktree line is
`"git worktree add --checkout %s origin/%[1]s"` applied to
`(worktree, refName)`: the indexed verb `%[1]s` refers back to the first
argument, so both substitutions are the slash-replaced worktree name. -/
def manualSteps (refName : String) (commitSHAs : List String) : List String :=
  let worktree := replaceSlashes refName
  ["git fetch origin " ++ refName,
   "git worktree add --checkout " ++ worktree ++ " origin/" ++ worktree,
   "cd " ++ worktree,
   "git reset --hard HEAD^",
   "git cherry-pick -x " ++ String.intercalate " " commitSHAs,
   "git push --force",
   "cd -",
   "git worktree remove " ++ worktree]

/-- `listManualSteps` (utils.go:55-68): the steps joined by newlines. -/
def listManualSteps (refName : String) (commitSHAs : List String) : String :=
  String.intercalate "\n" (manualSteps refName commitSHAs)

/-- The comment `backPorter.Run` posts on an unmerged source PR
(backport.go:59). -/
def notMergedMessage : String :=
  "⚠️ For security reasons, backbot backports merged pull requests only. Aborting."

/-- The comment posted when the selected range contains merge commits and the
handling value is abort (backport.go:121-124); `%v` of a Go string slice
renders as the space-separated elements in brackets. -/
def mergeAbortMessage (mergeCommitSHAs : List String) (prNumber : Int) : String :=
  "⚠️ Found merge commit(s) [" ++ String.intercalate " " mergeCommitSHAs ++
    "] in pull request #" ++ toString prNumber ++ ", backport aborted as per configuration."

/-- The comment posted when no commits remain to cherry-pick
(backport.go:133). -/
def noCommitsMessage : String :=
  "⚠️ No commits to cherry-pick after applying configuration, skipping backport."

/-- The comment posted on a conflict under the abort conflict-handling value
(backport.go:196-199). -/
def abortConflictMessage (targetRef : String) : String :=
  "⚠️ Conflict occurred while backporting to branch " ++ targetRef ++
    ". Aborting backport as per configuration."

/-- The comment posted on a conflict under the draft conflict-handling value
(backport.go:224-228), including the manual recovery steps for the remaining
commits. -/
def draftConflictMessage (commitSHA targetRef backportRef : String)
    (remaining : List String) : String :=
  "⚠️ Backporting commit " ++ commitSHA ++ " to branch `" ++ targetRef ++
    "` causes a conflict. Created draft PR for manual resolution.\n\n" ++
    "### Manual Backport Steps\n```bash\n" ++ listManualSteps backportRef remaining ++ "\n```\n"

/-- The comment posted when no backport PR was created (backport.go:170). -/
def noPrsCreatedMessage : String :=
  "⚠️ No backport PRs were created successfully. See the GitHub Actions logs for details."

/-- The final success comment of `backPorter.Run` (backport.go:174-177). -/
def successMessage (refList : List String) (prList : String) : String :=
  "Successfully created backport PR(s) onto the following branch(es): " ++
    String.intercalate ", " refList ++ "\n\n---\n" ++ prList

/-- An externally visible mutation or lookup performed during a run. -/
inductive Event where
  | getCommit (sha : String)
  | comment (prNumber : Int) (body : String)
  | checkout (ref startPoint : String)
  | push (ref : String)
  | createPR (number : Int) (head : String) (draft : Bool)
  | labelPR (prNumber : Int) (labels : List String)
  | dispatch (prNumber : Int)
deriving DecidableEq, Repr

/-- A pull request created during the run, with its draft flag. -/
structure CreatedPr where
  number : Int
  draft : Bool
deriving DecidableEq, Repr

/-- Result of one `git cherry-pick` of a single commit under the draft
conflict-handling loop: success, a content conflict (`IsConflictErr`), or
any other failure. -/
inductive StepResult where
  | ok
  | conflict
  | failed
deriving DecidableEq, Repr

/-- Result of the whole run (`backPorter.Run`'s return).  `commentResult`
records that the run returns whatever `CreateComment` returned for the given
comment; `panic` models a Go runtime panic (index out of range); `fatal`
models `githubactions.Fatalf` exiting the process. -/
inductive RunResult where
  | ok
  | apiError
  | fatal
  | panic
  | commentResult (prNumber : Int) (body : String)
deriving DecidableEq, Repr

/-- The oracle environment: the responses of the GitHub API and of the git
subprocess calls during one run. -/
structure Env where
  /-- The source PR number (`GetPrNumber`). -/
  prNumber : Int
  /-- The source PR snapshot (`GetPR`). -/
  pr : PullRequest
  /-- `Client.GetCommit` by SHA; `none` is an API error. -/
  getCommit : String → Option Commit
  /-- The compiled label pattern's `FindStringSubmatch`; `none` is a nil regex. -/
  labelRegex : Option (String → List String)
  /-- The compiled copy-label pattern's `MatchString`; `none` is a nil regex. -/
  copyRegex : Option (String → Bool)
  /-- Whether `git fetch` of a candidate target branch succeeds. -/
  fetchOk : String → Bool
  /-- The commit SHAs `Client.GetCommits` pages in for the source PR. -/
  prCommitPages : List String
  /-- The `git rev-list` output for the rebase range lookup (backport.go:101). -/
  rebaseRange : List String
  /-- The `git rev-list --merges` output for the selected range (backport.go:110). -/
  mergesInRange : List String
  /-- Whether `git switch --create` of a backport branch succeeds. -/
  checkoutOk : String → Bool
  /-- Whether the whole-list `git cherry-pick` under the abort value succeeds
  for a target branch (backport.go:193). -/
  cherryAllOk : String → Bool
  /-- The per-commit cherry-pick outcome under the draft value, by target
  branch and commit index (backport.go:207). -/
  cherryStep : String → Nat → StepResult
  /-- Whether `git push` of a backport branch succeeds. -/
  pushOk : String → Bool
  /-- The number of the PR `CreatePR` creates for a backport branch; `none`
  is a creation failure. -/
  createPrNumber : String → Option Int

/-- `Client.GetCommits` (github/git.go:128-157) restricted to the SHAs the
orchestrator extracts: an empty result when the PR's commit count field is
zero, otherwise the paged commit list. -/
def getCommits (pr : PullRequest) (pages : List String) : List String :=
  if pr.commits = 0 then [] else pages

/-- The commit-selection switch of `backPorter.Run` (backport.go:86-108):
the squash commit, the PR's commits, or the rebase range; `none` models the
`Fatalf` default branch for an undetermined kind. -/
def selectCommitSHAs (mk : MergeKind) (pr : PullRequest) (env : Env) : Option (List String) :=
  match mk with
  | .squash => some [pr.mergeCommitSHA]
  | .mergeCommit => some (getCommits pr env.prCommitPages)
  | .rebase => some env.rebaseRange
  | .invalid => none

/-- The shared tail of `backPorter.cherryPick` (backport.go:215-219 and
248-258): push the backport branch and create the pull request, giving up on
either failure. -/
def pushAndCreatePr (env : Env) (backportRef : String) (draft : Bool) :
    Option CreatedPr × List Event :=
  if env.pushOk backportRef then
    match env.createPrNumber backportRef with
    | some n => (some ⟨n, draft⟩, [.push backportRef, .createPR n backportRef draft])
    | none => (none, [.push backportRef])
  else (none, [])

/-- The per-commit loop of `backPorter.cherryPick` under the draft value
(backport.go:206-242): on a conflict at the current commit, push the branch
(which carries the conflict-marker draft commit), create a draft PR and post
the recovery message on the source PR and on the draft PR; on any other
failure give up; when all commits apply, fall through to the shared tail. -/
def draftLoop (env : Env) (srcPrNum : Int) (targetRef backportRef : String) :
    Nat → List String → Option CreatedPr × List Event
  | _, [] => pushAndCreatePr env backportRef false
  | i, sha :: rest =>
    match env.cherryStep targetRef i with
    | .ok => draftLoop env srcPrNum targetRef backportRef (i + 1) rest
    | .conflict =>
      match pushAndCreatePr env backportRef true with
      | (some newPr, evs) =>
        let msg := draftConflictMessage sha targetRef backportRef (sha :: rest)
        (some newPr, evs ++ [.comment srcPrNum msg, .comment newPr.number msg])
      | (none, evs) => (none, evs)
    | .failed => (none, [])

/-- `backPorter.cherryPick` (backport.go:188-261): the conflict-handling
switch, followed by the shared push-and-create tail; an unknown
conflict-handling value logs an error and creates nothing. -/
def cherryPick (cfg : Config) (env : Env) (srcPrNum : Int) (targetRef backportRef : String)
    (commitSHAs : List String) : Option CreatedPr × List Event :=
  if cfg.conflictHandling = ConflictHandlingAbort then
    if env.cherryAllOk targetRef then pushAndCreatePr env backportRef false
    else (none, [.comment srcPrNum (abortConflictMessage targetRef)])
  else if cfg.conflictHandling = ConflictHandlingDraft then
    draftLoop env srcPrNum targetRef backportRef 0 commitSHAs
  else (none, [])

/-- One iteration of the target loop of `backPorter.Run` (backport.go:143-166):
check out the backport branch from the target (skipping the target on
failure), cherry-pick, and on a created PR add the copy labels — to the
source PR, as the source passes `sourcePr` to `LabelPR` — and dispatch the
repository event.  `LabelPR` performs no call for an empty label list. -/
def processTarget (cfg : Config) (env : Env) (srcPrNum : Int) (labelsToAdd : List String)
    (commitSHAs : List String) (targetRef : String) : Option CreatedPr × List Event :=
  let backportRef := makeBackportBranchName srcPrNum targetRef
  if env.checkoutOk backportRef then
    let res := cherryPick cfg env srcPrNum targetRef backportRef commitSHAs
    match res.1 with
    | some newPr =>
      (some newPr,
        .checkout backportRef ("origin/" ++ targetRef) :: res.2 ++
          (if labelsToAdd.isEmpty then [] else [.labelPR srcPrNum labelsToAdd]) ++
          [.dispatch newPr.number])
    | none => (none, .checkout backportRef ("origin/" ++ targetRef) :: res.2)
  else (none, [])

/-- The target loop of `backPorter.Run` (backport.go:141-166), accumulating
the events, the `refList` entries and the `prList` text in loop order. -/
def runTargets (cfg : Config) (env : Env) (srcPrNum : Int) (labelsToAdd : List String)
    (commitSHAs : List String) : List String → List Event × List String × String
  | [] => ([], [], "")
  | t :: ts =>
    let pt := processTarget cfg env srcPrNum labelsToAdd commitSHAs t
    let rest := runTargets cfg env srcPrNum labelsToAdd commitSHAs ts
    match pt.1 with
    | some newPr =>
      (pt.2 ++ rest.1, ("`" ++ t ++ "`") :: rest.2.1,
        ("- #" ++ toString newPr.number ++ "\n") ++ rest.2.2)
    | none => (pt.2 ++ rest.1, rest.2.1, rest.2.2)

/-- The final comment of `backPorter.Run` (backport.go:168-178): the
"nothing created" comment when `refList` is empty, the success summary
otherwise. -/
def aggregateComment (srcPrNum : Int) (refList : List String) (prList : String) :
    Int × String :=
  if refList.length = 0 then (srcPrNum, noPrsCreatedMessage)
  else (srcPrNum, successMessage refList prList)

/-- `backPorter.Run` (backport.go:45-179) over the oracle environment,
returning the event trace and the run result.  The unguarded index accesses
`commitSHAs[0]` and `commitSHAs[len(commitSHAs)-1]` of the `--merges`
rev-list call (backport.go:110) panic in Go when the selected list is empty,
modelled as the `panic` result. -/
def run (cfg : Config) (env : Env) : List Event × RunResult :=
  let src := env.prNumber
  let pr := env.pr
  if !pr.merged then
    ([.comment src notMergedMessage], .commentResult src notMergedMessage)
  else
    let targetRefs := getTargetRefs env.labelRegex env.fetchOk pr.labels
    if targetRefs.length = 0 then ([], .ok)
    else
      let mkEvents : List Event :=
        if pr.mergeCommitSHA ≠ "" then [.getCommit pr.mergeCommitSHA] else []
      match mergeKind env.getCommit pr with
      | none => (mkEvents, .apiError)
      | some mk =>
        match selectCommitSHAs mk pr env with
        | none => (mkEvents, .fatal)
        | some commitSHAs =>
          if commitSHAs.length = 0 then (mkEvents, .panic)
          else
            match filterMergeCommits cfg.mergeCommitHandling commitSHAs env.mergesInRange with
            | .aborted =>
              let msg := mergeAbortMessage env.mergesInRange src
              (mkEvents ++ [.comment src msg], .commentResult src msg)
            | .kept kept =>
              if kept.length = 0 then
                (mkEvents ++ [.comment src noCommitsMessage],
                  .commentResult src noCommitsMessage)
              else
                let labelsToAdd := getLabelsToAdd env.labelRegex env.copyRegex pr.labels
                let loopRes := runTargets cfg env src labelsToAdd kept targetRefs
                let final := aggregateComment src loopRes.2.1 loopRes.2.2
                (mkEvents ++ loopRes.1 ++ [.comment final.1 final.2],
                  .commentResult final.1 final.2)

/-- C10.  For every source pull request that is not merged, the run posts
exactly one warning comment on that PR and terminates with the
comment-posting result as its outcome: the event trace holds nothing but
that comment — no commit lookup, no checkout, no push, no pull-request
creation, no labelling, no dispatch. -/
theorem c10_not_merged_early_return (cfg : Config) (env : Env)
    (h : env.pr.merged = false) :
    run cfg env = ([.comment env.prNumber notMergedMessage],
      .commentResult env.prNumber notMergedMessage) := by
  simp [run, h]

/-- An environment whose source PR is unmerged, all oracles inert. -/
def c10Env : Env :=
  { prNumber := 9
    pr := { number := 9, merged := false, mergeCommitSHA := "", commits := 0,
            changedFiles := [], labels := [] }
    getCommit := fun _ => none
    labelRegex := none
    copyRegex := none
    fetchOk := fun _ => false
    prCommitPages := []
    rebaseRange := []
    mergesInRange := []
    checkoutOk := fun _ => false
    cherryAllOk := fun _ => false
    cherryStep := fun _ _ => .failed
    pushOk := fun _ => false
    createPrNumber := fun _ => none }

theorem c10_not_merged_early_return_witness :
    c10Env.pr.merged = false ∧
    run { mergeCommitHandling := "skip", conflictHandling := "abort" } c10Env
      = ([.comment c10Env.prNumber notMergedMessage],
         .commentResult c10Env.prNumber notMergedMessage) :=
  ⟨rfl, c10_not_merged_early_return
    { mergeCommitHandling := "skip", conflictHandling := "abort" } c10Env rfl⟩

/-- A merged MergeCommit-kind PR whose commit count field is zero, so that
the commit selection is empty: one matching label, a two-parent merge
commit, an empty commit fetch. -/
def c3Env : Env :=
  { prNumber := 42
    pr := { number := 42, merged := true, mergeCommitSHA := "m", commits := 0,
            changedFiles := [], labels := ["backport-to-v1"] }
    getCommit := fun s =>
      if s = "m" then some { sha := "m", parents := ["p1", "p2"], files := [] } else none
    labelRegex := some fun l => if l = "backport-to-v1" then [l, "v1"] else []
    copyRegex := none
    fetchOk := fun b => b == "v1"
    prCommitPages := []
    rebaseRange := []
    mergesInRange := []
    checkoutOk := fun _ => true
    cherryAllOk := fun _ => true
    cherryStep := fun _ _ => .ok
    pushOk := fun _ => true
    createPrNumber := fun _ => some 100 }

/-- C3.  On a merged MergeCommit-kind PR whose commit fetch returns zero
commits, the selected commit list is empty and the run panics at the
unguarded `commitSHAs[0]` index of backport.go:110, instead of reaching the
"no commits to cherry-pick" comment of backport.go:131-133: the trace ends
after the merge-commit lookup, with no comment posted. -/
theorem c3_empty_selection_panics :
    mergeKind c3Env.getCommit c3Env.pr = some .mergeCommit ∧
    selectCommitSHAs .mergeCommit c3Env.pr c3Env = some [] ∧
    run { mergeCommitHandling := "skip", conflictHandling := "abort" } c3Env
      = ([.getCommit "m"], .panic) := by
  refine ⟨by decide, by decide, by decide⟩

/-- A squash-merged PR with one target label and one copyable label, where
every git and API operation succeeds and the created backport PR gets
number 100. -/
def c5Env : Env :=
  { prNumber := 42
    pr := { number := 42, merged := true, mergeCommitSHA := "m", commits := 1,
            changedFiles := [], labels := ["backport-to-v1", "bug"] }
    getCommit := fun s =>
      if s = "m" then some { sha := "m", parents := ["p0"], files := [] } else none
    labelRegex := some fun l => if l = "backport-to-v1" then [l, "v1"] else []
    copyRegex := some fun l => l == "bug"
    fetchOk := fun b => b == "v1"
    prCommitPages := []
    rebaseRange := []
    mergesInRange := []
    checkoutOk := fun _ => true
    cherryAllOk := fun _ => true
    cherryStep := fun _ _ => .ok
    pushOk := fun _ => true
    createPrNumber := fun _ => some 100 }

/-- C5.  The copy list is computed as the labels matching the copy pattern
and not the target pattern, but it is applied to the source PR: on a run
creating backport PR #100 from source PR #42, the single label-addition
event targets PR #42, and no label-addition event targets the created
backport PR — the source passes `sourcePr` to `LabelPR` (backport.go:154)
although its own documentation says the labels are for the backport PRs. -/
theorem c5_labels_added_to_source_pr :
    getLabelsToAdd c5Env.labelRegex c5Env.copyRegex c5Env.pr.labels = ["bug"] ∧
    run { mergeCommitHandling := "skip", conflictHandling := "abort" } c5Env
      = ([.getCommit "m",
          .checkout "backport-42-to-v1" "origin/v1",
          .push "backport-42-to-v1",
          .createPR 100 "backport-42-to-v1" false,
          .labelPR 42 ["bug"],
          .dispatch 100,
          .comment 42 (successMessage ["`v1`"] "- #100\n")],
         .commentResult 42 (successMessage ["`v1`"] "- #100\n")) ∧
    ((run { mergeCommitHandling := "skip", conflictHandling := "abort" } c5Env).1.all
      fun e => match e with | .labelPR n _ => n == 42 | _ => true) = true ∧
    ((run { mergeCommitHandling := "skip", conflictHandling := "abort" } c5Env).1.contains
      (.labelPR 100 ["bug"])) = false := by
  refine ⟨by decide, by decide, by decide, by decide⟩

/-- C6 amended.  Under the abort conflict-handling value, a failing
cherry-pick of the commit list yields no pushed branch and no pull request —
the whole effect is exactly one comment on the source PR — and that comment
names the target branch.  (The conflicting commit is not named: the abort
path applies the whole list in one git call and its message only carries the
target, see the counterexample.) -/
theorem c6_abort_conflict_amended (cfg : Config) (env : Env) (srcPrNum : Int)
    (targetRef backportRef : String) (commitSHAs : List String)
    (hpol : cfg.conflictHandling = ConflictHandlingAbort)
    (hconf : env.cherryAllOk targetRef = false) :
    cherryPick cfg env srcPrNum targetRef backportRef commitSHAs
      = (none, [.comment srcPrNum (abortConflictMessage targetRef)]) ∧
    targetRef.data <:+: (abortConflictMessage targetRef).data := by
  constructor
  · simp [cherryPick, hpol, hconf]
  · refine ⟨"⚠️ Conflict occurred while backporting to branch ".data,
      ". Aborting backport as per configuration.".data, ?_⟩
    simp [abortConflictMessage, String.data_append]

/-- An environment whose whole-list cherry-pick fails for every target. -/
def c6Env : Env :=
  { prNumber := 42
    pr := { number := 42, merged := true, mergeCommitSHA := "m", commits := 1,
            changedFiles := [], labels := [] }
    getCommit := fun _ => none
    labelRegex := none
    copyRegex := none
    fetchOk := fun _ => true
    prCommitPages := []
    rebaseRange := []
    mergesInRange := []
    checkoutOk := fun _ => true
    cherryAllOk := fun _ => false
    cherryStep := fun _ _ => .ok
    pushOk := fun _ => true
    createPrNumber := fun _ => some 100 }

theorem c6_abort_conflict_amended_witness :
    ({ mergeCommitHandling := "skip", conflictHandling := "abort" } : Config).conflictHandling
        = ConflictHandlingAbort ∧
    c6Env.cherryAllOk "v1" = false ∧
    (cherryPick { mergeCommitHandling := "skip", conflictHandling := "abort" } c6Env 42 "v1"
        "backport-42-to-v1" ["deadbeef1234"]
      = (none, [.comment 42 (abortConflictMessage "v1")]) ∧
     ("v1").data <:+: (abortConflictMessage "v1").data) :=
  ⟨rfl, rfl,
    c6_abort_conflict_amended { mergeCommitHandling := "skip", conflictHandling := "abort" }
      c6Env 42 "v1" "backport-42-to-v1" ["deadbeef1234"] rfl rfl⟩

/-- C6 counterexample.  On a conflict while backporting commit
`deadbeef1234` to branch `v1` under the abort value, the single comment
posted does not name the conflicting commit: its SHA does not occur in the
comment body. -/
theorem c6_abort_comment_cex :
    (cherryPick { mergeCommitHandling := "skip", conflictHandling := "abort" } c6Env 42 "v1"
        "backport-42-to-v1" ["deadbeef1234"]).2
      = [.comment 42 (abortConflictMessage "v1")] ∧
    ¬ ("deadbeef1234".data <:+: (abortConflictMessage "v1").data) := by
  refine ⟨by decide, by decide⟩

/-- C7 amended.  The manual recovery script is a fixed eight-command
sequence: fetch of the backport branch (not of the target branch), worktree
add from the slash-replaced backport branch name, cd, an unconditional
`git reset --hard HEAD^` (present whatever the conflict index, since the
draft flow always commits a conflict-marker draft commit), cherry-pick with
the record-origin flag of exactly the remaining commit SHAs, force push, cd
back, and worktree removal. -/
theorem c7_manual_steps_amended (refName : String) (shas : List String) :
    (manualSteps refName shas).length = 8 ∧
    (manualSteps refName shas)[0]? = some ("git fetch origin " ++ refName) ∧
    (manualSteps refName shas)[1]? = some ("git worktree add --checkout " ++
      replaceSlashes refName ++ " origin/" ++ replaceSlashes refName) ∧
    (manualSteps refName shas)[3]? = some "git reset --hard HEAD^" ∧
    (manualSteps refName shas)[4]? = some ("git cherry-pick -x " ++
      String.intercalate " " shas) ∧
    (manualSteps refName shas)[5]? = some "git push --force" ∧
    (manualSteps refName shas)[7]? = some ("git worktree remove " ++
      replaceSlashes refName) := by
  refine ⟨rfl, rfl, rfl, rfl, rfl, rfl, rfl⟩

/-- A draft-policy environment that conflicts at commit index 1. -/
def c7Env : Env :=
  { prNumber := 42
    pr := { number := 42, merged := true, mergeCommitSHA := "m", commits := 3,
            changedFiles := [], labels := [] }
    getCommit := fun _ => none
    labelRegex := none
    copyRegex := none
    fetchOk := fun _ => true
    prCommitPages := []
    rebaseRange := []
    mergesInRange := []
    checkoutOk := fun _ => true
    cherryAllOk := fun _ => true
    cherryStep := fun _ i => if i = 1 then .conflict else .ok
    pushOk := fun _ => true
    createPrNumber := fun _ => some 100 }

/-- C7 counterexample.  On a conflict at index 1 (not 0) under the draft
value, the recovery message posted on the source PR and on the draft PR
still contains the `git reset --hard HEAD^` step, and its fetch command
names the backport branch `backport-42-to-v1`, not the target branch `v1`. -/
theorem c7_manual_steps_cex :
    c7Env.cherryStep "v1" 1 = .conflict ∧ (1 : Nat) ≠ 0 ∧
    cherryPick { mergeCommitHandling := "skip", conflictHandling := "draft" } c7Env 42 "v1"
        "backport-42-to-v1" ["s0", "s1", "s2"]
      = (some { number := 100, draft := true },
         [.push "backport-42-to-v1",
          .createPR 100 "backport-42-to-v1" true,
          .comment 42 (draftConflictMessage "s1" "v1" "backport-42-to-v1" ["s1", "s2"]),
          .comment 100 (draftConflictMessage "s1" "v1" "backport-42-to-v1" ["s1", "s2"])]) ∧
    (manualSteps "backport-42-to-v1" ["s1", "s2"]).contains "git reset --hard HEAD^" = true ∧
    (manualSteps "backport-42-to-v1" ["s1", "s2"]).contains "git fetch origin v1" = false ∧
    (manualSteps "backport-42-to-v1" ["s1", "s2"]).contains
      "git fetch origin backport-42-to-v1" = true := by
  refine ⟨by decide, by decide, by decide, by decide, by decide, by decide⟩

lemma runTargets_refList_eq (cfg : Config) (env : Env) (srcPrNum : Int)
    (labelsToAdd commitSHAs : List String) (targets : List String) :
    (runTargets cfg env srcPrNum labelsToAdd commitSHAs targets).2.1
      = targets.filterMap (fun t =>
          (processTarget cfg env srcPrNum labelsToAdd commitSHAs t).1.map
            (fun _ => "`" ++ t ++ "`")) := by
  induction targets with
  | nil => rfl
  | cons t ts ih =>
    simp only [runTargets, List.filterMap_cons]
    cases hpt : (processTarget cfg env srcPrNum labelsToAdd commitSHAs t).1 with
    | some newPr => simp [hpt, ih]
    | none => simp [hpt, ih]

lemma runTargets_prList_eq (cfg : Config) (env : Env) (srcPrNum : Int)
    (labelsToAdd commitSHAs : List String) (targets : List String) :
    (runTargets cfg env srcPrNum labelsToAdd commitSHAs targets).2.2
      = (targets.filterMap (fun t =>
          (processTarget cfg env srcPrNum labelsToAdd commitSHAs t).1.map
            (fun p => "- #" ++ toString p.number ++ "\n"))).foldr (· ++ ·) "" := by
  induction targets with
  | nil => rfl
  | cons t ts ih =>
    simp only [runTargets, List.filterMap_cons]
    cases hpt : (processTarget cfg env srcPrNum labelsToAdd commitSHAs t).1 with
    | some newPr => simp [hpt, ih]
    | none => simp [hpt, ih]

/-- C8.  The result aggregation: the branch list and PR list accumulated by
the target loop name exactly the targets whose attempt created a pull
request (draft or not), in loop order, pairing each branch name with the
created PR's number; and the single final comment is the "nothing created"
message precisely when no attempt created a PR, and otherwise the success
summary of those branch names and PR numbers. -/
theorem c8_result_aggregation (cfg : Config) (env : Env) (srcPrNum : Int)
    (labelsToAdd commitSHAs : List String) (targets : List String) :
    (runTargets cfg env srcPrNum labelsToAdd commitSHAs targets).2.1
      = targets.filterMap (fun t =>
          (processTarget cfg env srcPrNum labelsToAdd commitSHAs t).1.map
            (fun _ => "`" ++ t ++ "`")) ∧
    (runTargets cfg env srcPrNum labelsToAdd commitSHAs targets).2.2
      = (targets.filterMap (fun t =>
          (processTarget cfg env srcPrNum labelsToAdd commitSHAs t).1.map
            (fun p => "- #" ++ toString p.number ++ "\n"))).foldr (· ++ ·) "" ∧
    aggregateComment srcPrNum (runTargets cfg env srcPrNum labelsToAdd commitSHAs targets).2.1
        (runTargets cfg env srcPrNum labelsToAdd commitSHAs targets).2.2
      = (if targets.all (fun t =>
            (processTarget cfg env srcPrNum labelsToAdd commitSHAs t).1.isNone)
         then (srcPrNum, noPrsCreatedMessage)
         else (srcPrNum,
           successMessage (runTargets cfg env srcPrNum labelsToAdd commitSHAs targets).2.1
             (runTargets cfg env srcPrNum labelsToAdd commitSHAs targets).2.2)) := by
  have hrefs := runTargets_refList_eq cfg env srcPrNum labelsToAdd commitSHAs targets
  have hprs := runTargets_prList_eq cfg env srcPrNum labelsToAdd commitSHAs targets
  refine ⟨hrefs, hprs, ?_⟩
  by_cases hall : targets.all (fun t =>
      (processTarget cfg env srcPrNum labelsToAdd commitSHAs t).1.isNone) = true
  · have hnil : (runTargets cfg env srcPrNum labelsToAdd commitSHAs targets).2.1 = [] := by
      rw [hrefs, List.filterMap_eq_nil_iff]
      intro t ht
      have := List.all_eq_true.mp hall t ht
      rw [Option.isNone_iff_eq_none] at this
      simp [this]
    simp [aggregateComment, hnil, hall]
  · have hne : (runTargets cfg env srcPrNum labelsToAdd commitSHAs targets).2.1 ≠ [] := by
      intro hnil
      apply hall
      rw [hrefs, List.filterMap_eq_nil_iff] at hnil
      refine List.all_eq_true.mpr fun t ht => ?_
      have := hnil t ht
      rw [Option.map_eq_none'] at this
      simp [this]
    have hb : targets.all (fun t =>
        (processTarget cfg env srcPrNum labelsToAdd commitSHAs t).1.isNone) = false :=
      Bool.eq_false_iff.mpr hall
    have hlen : (runTargets cfg env srcPrNum labelsToAdd commitSHAs targets).2.1.length ≠ 0 := by
      intro h0
      exact hne (List.length_eq_zero.mp h0)
    simp [aggregateComment, hlen, hb]

end Backbot
